import Mathlib

/-!
Verification of the fshell_sdk command-shell ABI (`src/include/fn_api.h`)
and of the engine behind it. The header declares the contract (result
codes, ABI structs, function signatures); the engine implementing the
contract is not part of the source tree, so its operations are modelled
from the specification and each such definition is marked
`Modelled from the spec:`.
-/

namespace FShell

/-- Result codes from `fn_api.h` (`FnResult`). The C enum fixes
`FN_OK = 0` and assigns each following enumerator the previous value
plus one; the enum is part of the ABI and append-only. -/
inductive FnResult where
  | FN_OK
  | FN_ERR_INVALID_ARGUMENT
  | FN_ERR_NOT_INITIALIZED
  | FN_ERR_ALREADY_REGISTERED
  | FN_ERR_INTERNAL
  | FN_ERR_UNSUPPORTED
  | FN_ERR_NOT_FOUND
  | FN_ERR_NOT_AUTHENTICATED
  | FN_ERR_PERMISSION_DENIED
  | FN_ERR_NOT_IMPLEMENTED
  deriving DecidableEq, Fintype, Repr

/-- Numeric value of each `FnResult` enumerator under C enum semantics
(`FN_OK = 0`, then consecutive increments in declaration order). -/
def FnResult.code : FnResult → Nat
  | .FN_OK => 0
  | .FN_ERR_INVALID_ARGUMENT => 1
  | .FN_ERR_NOT_INITIALIZED => 2
  | .FN_ERR_ALREADY_REGISTERED => 3
  | .FN_ERR_INTERNAL => 4
  | .FN_ERR_UNSUPPORTED => 5
  | .FN_ERR_NOT_FOUND => 6
  | .FN_ERR_NOT_AUTHENTICATED => 7
  | .FN_ERR_PERMISSION_DENIED => 8
  | .FN_ERR_NOT_IMPLEMENTED => 9

/-- The declaration order of the `FnResult` enumerators in `fn_api.h`. -/
def fnResultOrder : List FnResult :=
  [.FN_OK, .FN_ERR_INVALID_ARGUMENT, .FN_ERR_NOT_INITIALIZED,
   .FN_ERR_ALREADY_REGISTERED, .FN_ERR_INTERNAL, .FN_ERR_UNSUPPORTED,
   .FN_ERR_NOT_FOUND, .FN_ERR_NOT_AUTHENTICATED, .FN_ERR_PERMISSION_DENIED,
   .FN_ERR_NOT_IMPLEMENTED]

/-- Execution modes from `fn_api.h` (`FnExecutionMode`). -/
inductive FnExecutionMode where
  | FN_MODE_INTERACTIVE
  | FN_MODE_DAEMON
  deriving DecidableEq, Repr

/-- Key-value pair from `fn_api.h` (`FnKeyValue`): a named parameter or
subcommand value; both fields are strings. -/
structure FnKeyValue where
  key : String
  value : String
  deriving DecidableEq, Repr

/-- Boolean flag from `fn_api.h` (`FnFlag`): flag name without dashes,
and a presence bit (1 / 0 in C, modelled as `Bool`). -/
structure FnFlag where
  name : String
  value : Bool
  deriving DecidableEq, Repr

/-- Parsed command view from `fn_api.h` (`FnCommandData`): the primary
command name, the array of key-value subcommands with its count, and
the array of flags with its count. The C arrays plus counts are
modelled as Lean lists. -/
structure FnCommandData where
  main_command : String
  subcommands : List FnKeyValue
  flags : List FnFlag
  deriving DecidableEq, Repr

/-- Modelled from the spec: the command parser's tokenizer (engine code
absent from the source tree). Whitespace between tokens is the only
delimiter; `cur` accumulates the current token in reverse. -/
def tokenizeAux : List Char → List Char → List (List Char)
  | [], cur => if cur = [] then [] else [cur.reverse]
  | c :: cs, cur =>
    if c.isWhitespace then
      if cur = [] then tokenizeAux cs []
      else cur.reverse :: tokenizeAux cs []
    else tokenizeAux cs (c :: cur)

/-- Modelled from the spec: split an input line into whitespace-delimited
tokens. -/
def tokenize (line : String) : List (List Char) :=
  tokenizeAux line.toList []

/-- Modelled from the spec: split a token at its first `=` character,
returning the key (before the first `=`) and the value (everything
after it, which may itself contain `=`); `none` when the token has
no `=`. -/
def splitAtEq : List Char → Option (List Char × List Char)
  | [] => none
  | '=' :: rest => some ([], rest)
  | c :: rest => (splitAtEq rest).map (fun p => (c :: p.1, p.2))

/-- Modelled from the spec: classify the tokens after `main_command`.
A token containing `=` becomes a subcommand pair split at the first
`=`; otherwise a token beginning with `-` becomes a flag with value
true, with the leading `-` stripped from the flag name; any other
token is positional and is merged as a subcommand under the
index-derived key `argN` (N counts positional tokens from 0).
Subcommands keep appearance order. -/
def classifyTokens : Nat → List (List Char) → List FnKeyValue × List FnFlag
  | _, [] => ([], [])
  | idx, tok :: rest =>
    match splitAtEq tok with
    | some kv =>
      let tail := classifyTokens idx rest
      (⟨String.mk kv.1, String.mk kv.2⟩ :: tail.1, tail.2)
    | none =>
      match tok with
      | '-' :: nameChars =>
        let tail := classifyTokens idx rest
        (tail.1, ⟨String.mk nameChars, true⟩ :: tail.2)
      | _ =>
        let tail := classifyTokens (idx + 1) rest
        (⟨"arg" ++ toString idx, String.mk tok⟩ :: tail.1, tail.2)

/-- Modelled from the spec: `parse(line) -> ParsedCommand | ParseError`.
The first whitespace-delimited token is the required `main_command`;
an empty or whitespace-only line is a parse error (reported as
`FN_ERR_INVALID_ARGUMENT` per the error taxonomy). The parser is pure. -/
def parse (line : String) : Except FnResult FnCommandData :=
  match tokenize line with
  | [] => Except.error FnResult.FN_ERR_INVALID_ARGUMENT
  | main :: rest =>
    let cf := classifyTokens 0 rest
    Except.ok ⟨String.mk main, cf.1, cf.2⟩

/-- Modelled from the spec: a command handler callable
(`FnCommandHandler` in `fn_api.h`). It receives the parsed command view
and the opaque user context (modelled as a `Nat`) and returns a result
code. -/
def FnCommandHandler : Type := FnCommandData → Nat → FnResult

/-- Modelled from the spec: a registry entry
(`CommandEntry = {name, handler, user_data, help_text}`), created by
registration and immutable thereafter. -/
structure CommandEntry where
  name : String
  handler : FnCommandHandler
  user_data : Nat
  help_text : String

/-- Modelled from the spec: the execution-engine states
`Idle -> {Interactive, Daemon} -> Stopped`. -/
inductive EngineState where
  | Idle
  | Interactive
  | Daemon
  | Stopped
  deriving DecidableEq, Repr

/-- Modelled from the spec: a `ShellInstance` (one per `fn_create`):
the registry, the current execution mode, the IPC channel name for
daemon mode, the welcome header, and the engine state. -/
structure ShellInstance where
  app_name : String
  registry : List CommandEntry
  mode : FnExecutionMode
  pipe_name : String
  header : String
  engine_state : EngineState

/-- Default IPC channel name for daemon mode, from `fn_api.h`
(`NULL uses default "fshell_ctrl"`). -/
def defaultPipeName : String := "fshell_ctrl"

/-- Modelled from the spec: `fn_create(app_name)` returns a fresh
instance with an empty registry, interactive mode (the default), and
state `Idle`. -/
def fn_create (app_name : String) : ShellInstance :=
  ⟨app_name, [], FnExecutionMode.FN_MODE_INTERACTIVE, defaultPipeName, "",
   EngineState.Idle⟩

/-- Modelled from the spec: case-sensitive exact-match registry lookup
(`lookup(name) -> CommandEntry | NotFound`). -/
def lookupCommand (reg : List CommandEntry) (n : String) : Option CommandEntry :=
  reg.find? (fun e => e.name == n)

/-- Modelled from the spec: `fn_cmd_register`. A NULL (`none`) name or
handler, or an empty name, fails with `FN_ERR_INVALID_ARGUMENT`; a
duplicate name fails with `FN_ERR_ALREADY_REGISTERED`; in every
failure case the registry is unchanged. On success the new entry is
appended. -/
def fn_cmd_register (st : ShellInstance) (command_name : Option String)
    (handler : Option FnCommandHandler) (user_data : Nat)
    (help_text : String) : FnResult × ShellInstance :=
  match command_name, handler with
  | some n, some h =>
    if n = "" then (FnResult.FN_ERR_INVALID_ARGUMENT, st)
    else
      match lookupCommand st.registry n with
      | some _ => (FnResult.FN_ERR_ALREADY_REGISTERED, st)
      | none =>
        (FnResult.FN_OK,
         {st with registry := st.registry ++ [⟨n, h, user_data, help_text⟩]})
  | _, _ => (FnResult.FN_ERR_INVALID_ARGUMENT, st)

/-- Modelled from the spec: invoke a registry entry's handler on a
parsed command view, passing the entry's user context. -/
def invokeEntry (e : CommandEntry) (cmd : FnCommandData) : FnResult :=
  e.handler cmd e.user_data

/-- Modelled from the spec: the shared dispatch path
parse -> registry lookup -> handler invocation. Returns the result
code and the entry that was invoked (`none` when parsing failed or the
command was not found, i.e. nothing was dispatched). -/
def dispatchLine (st : ShellInstance) (line : String) :
    FnResult × Option CommandEntry :=
  match parse line with
  | Except.error e => (e, none)
  | Except.ok cmd =>
    match lookupCommand st.registry cmd.main_command with
    | none => (FnResult.FN_ERR_NOT_FOUND, none)
    | some entry => (invokeEntry entry cmd, some entry)

/-- Modelled from the spec: `fn_cmd_execute(api, cmd)`, the one-shot
non-interactive execution of a command line through the shared
dispatch path. A NULL command line is an argument error. -/
def fn_cmd_execute (st : ShellInstance) (cmd : Option String) :
    FnResult × Option CommandEntry :=
  match cmd with
  | none => (FnResult.FN_ERR_INVALID_ARGUMENT, none)
  | some line => dispatchLine st line

/-- Modelled from the spec: `fn_set_execution_mode` is only valid in
`Idle`; it records the chosen mode and, for daemon mode, the channel
name, defaulting to `"fshell_ctrl"` when the name is unspecified
(NULL) or empty. -/
def fn_set_execution_mode (st : ShellInstance) (mode : FnExecutionMode)
    (pipe_name : Option String) : FnResult × ShellInstance :=
  if st.engine_state = EngineState.Idle then
    match mode with
    | FnExecutionMode.FN_MODE_INTERACTIVE =>
      (FnResult.FN_OK, {st with mode := mode})
    | FnExecutionMode.FN_MODE_DAEMON =>
      let name :=
        match pipe_name with
        | none => defaultPipeName
        | some s => if s = "" then defaultPipeName else s
      (FnResult.FN_OK, {st with mode := mode, pipe_name := name})
  else (FnResult.FN_ERR_NOT_INITIALIZED, st)

/-- Modelled from the spec: what the blocked `run()` loop observes over
time: either an input line arriving, or the stop flag set by a
`stop()` call from another context. -/
inductive RunEvent where
  | input (line : String)
  | stopSignal

/-- Modelled from the spec: the state `run()` enters from `Idle` for
each configured mode. -/
def modeState : FnExecutionMode → EngineState
  | FnExecutionMode.FN_MODE_INTERACTIVE => EngineState.Interactive
  | FnExecutionMode.FN_MODE_DAEMON => EngineState.Daemon

/-- Modelled from the spec: the blocking loop inside `run()`. It
dispatches each input line (handler errors are not fatal, so the
instance survives every line), returns as soon as the stop flag is
observed, and transitions to `Stopped` on exit (also on end of
input). The second component records the lines actually dispatched,
in order. -/
def runLoop : ShellInstance → List RunEvent → ShellInstance × List String
  | st, [] => ({st with engine_state := EngineState.Stopped}, [])
  | st, RunEvent.stopSignal :: _ =>
    ({st with engine_state := EngineState.Stopped}, [])
  | st, RunEvent.input l :: rest =>
    let r := runLoop st rest
    (r.1, l :: r.2)

/-- Modelled from the spec: `fn_run`. Called from any state other than
`Idle` it fails with `FN_ERR_NOT_INITIALIZED` and changes nothing;
from `Idle` it enters the configured mode's state, blocks on the
loop, and ends `Stopped`. -/
def fn_run (st : ShellInstance) (events : List RunEvent) :
    FnResult × ShellInstance × List String :=
  if st.engine_state = EngineState.Idle then
    let r := runLoop {st with engine_state := modeState st.mode} events
    (FnResult.FN_OK, r.1, r.2)
  else (FnResult.FN_ERR_NOT_INITIALIZED, st, [])

/-- Modelled from the spec: `fn_destroy` acts on a process-wide handle
table; the parameter is the handle (`none` models a NULL pointer). -/
structure ApiWorld where
  instances : List (Nat × ShellInstance)

/-- Modelled from the spec: `fn_destroy(api)`. Safe to pass NULL: a
`none` handle performs no operation; otherwise the instance is removed
from the handle table. -/
def fn_destroy (w : ApiWorld) (api : Option Nat) : ApiWorld :=
  match api with
  | none => w
  | some h => ⟨w.instances.filter (fun p => p.1 != h)⟩

/-- Helper function `fn_get_param` from `fn_api.h`, modelled from the
spec (NULL pointers become `none`): find the value of the first
subcommand pair whose key matches; NULL command view, NULL key, or a
missing key yield no value. -/
def fn_get_param (cmd : Option FnCommandData) (key : Option String) :
    Option String :=
  match cmd, key with
  | some c, some k => (c.subcommands.find? (fun p => p.key == k)).map
      (fun p => p.value)
  | _, _ => none

/-- Helper function `fn_has_flag` from `fn_api.h`, modelled from the
spec (NULL pointers become `none`): 1 when the named flag is present
in the view's flag array, 0 otherwise (also for a NULL view or NULL
name). -/
def fn_has_flag (cmd : Option FnCommandData) (flag : Option String) : Nat :=
  match cmd, flag with
  | some c, some f => if c.flags.any (fun fl => fl.name == f) then 1 else 0
  | _, _ => 0

/-- Modelled from the spec: the session manager's binding table, mapping
a calling context (thread or connection, modelled as `Nat`) to the
session id (`int` in C, modelled as `Int`) it currently holds.
Binding is per calling context, not global. -/
def bindingOf (bs : List (Nat × Int)) (ctx : Nat) : Option Int :=
  (bs.find? (fun p => p.1 == ctx)).map (fun p => p.2)

/-- Modelled from the spec: remove a calling context's binding
(`clear(calling_context)`). -/
def removeBinding (bs : List (Nat × Int)) (ctx : Nat) : List (Nat × Int) :=
  bs.filter (fun p => p.1 != ctx)

/-- Modelled from the spec: bind a calling context to a session id,
replacing any previous binding of that context
(`associate(session_id, calling_context)`). -/
def setBinding (bs : List (Nat × Int)) (ctx : Nat) (sid : Int) :
    List (Nat × Int) :=
  (ctx, sid) :: removeBinding bs ctx

/-- Modelled from the spec: contents of a session's append-only output
sink, as the sequence of texts appended to it ([] when the session has
no sink yet). -/
def sinkOf (sinks : List (Int × List String)) (sid : Int) : List String :=
  match sinks.find? (fun p => p.1 == sid) with
  | some p => p.2
  | none => []

/-- Modelled from the spec: append one text to a session's output sink,
creating the sink on first use. -/
def appendSink : List (Int × List String) → Int → String →
    List (Int × List String)
  | [], sid, t => [(sid, [t])]
  | p :: rest, sid, t =>
    if p.1 == sid then (p.1, p.2 ++ [t]) :: rest
    else p :: appendSink rest sid t

/-- Modelled from the spec: the session manager's state — per-context
bindings, per-session output sinks, and the instance-wide default sink
(the interactive terminal) used when no session is bound. -/
structure SessionState where
  binding : List (Nat × Int)
  sinks : List (Int × List String)
  defaultSink : List String

/-- Modelled from the spec: `fn_set_thread_session_id` associates the
calling context with a session for output capture. -/
def fn_set_thread_session_id (st : SessionState) (ctx : Nat) (sid : Int) :
    SessionState :=
  {st with binding := setBinding st.binding ctx sid}

/-- Modelled from the spec: `fn_clear_thread_session_id` clears the
calling context's session association. -/
def fn_clear_thread_session_id (st : SessionState) (ctx : Nat) :
    SessionState :=
  {st with binding := removeBinding st.binding ctx}

/-- Modelled from the spec: `fn_print` appends the text to the output
sink of the session bound to the calling context, or to the default
sink when no session is bound. -/
def fn_print (st : SessionState) (ctx : Nat) (t : String) : SessionState :=
  match bindingOf st.binding ctx with
  | some sid => {st with sinks := appendSink st.sinks sid t}
  | none => {st with defaultSink := st.defaultSink ++ [t]}

/-- Modelled from the spec: one observable session-manager call, tagged
with the calling context that performs it. An interleaved trace of
such events models concurrent contexts sharing the session manager. -/
inductive SessEvent where
  | setSession (ctx : Nat) (sid : Int)
  | clearSession (ctx : Nat)
  | printText (ctx : Nat) (text : String)

/-- Modelled from the spec: apply one session-manager call to the
state. -/
def sessStep (st : SessionState) : SessEvent → SessionState
  | SessEvent.setSession ctx sid => fn_set_thread_session_id st ctx sid
  | SessEvent.clearSession ctx => fn_clear_thread_session_id st ctx
  | SessEvent.printText ctx t => fn_print st ctx t

/-- Modelled from the spec: run an interleaved trace of session-manager
calls from the given state. -/
def sessRun (st : SessionState) : List SessEvent → SessionState
  | [] => st
  | e :: rest => sessRun (sessStep st e) rest

/-- Follows the spec's words (for comparison with the model): the texts
of exactly those `print` calls in the trace that are made while
session `A` is bound on the printing call's own context, in order.
Tracks only the bindings, never the sinks. -/
def printsFor (bs : List (Nat × Int)) (A : Int) : List SessEvent → List String
  | [] => []
  | SessEvent.setSession ctx sid :: rest => printsFor (setBinding bs ctx sid) A rest
  | SessEvent.clearSession ctx :: rest => printsFor (removeBinding bs ctx) A rest
  | SessEvent.printText ctx t :: rest =>
    if bindingOf bs ctx = some A then t :: printsFor bs A rest
    else printsFor bs A rest

/-- Modelled from the spec: `fn_stop` is valid from `Interactive` or
`Daemon` and transitions the instance to `Stopped`; from any other
state it is a lifecycle error. Its arrival inside a blocked `run()`
loop is modelled by the `RunEvent.stopSignal` event. -/
def fn_stop (st : ShellInstance) : FnResult × ShellInstance :=
  match st.engine_state with
  | EngineState.Interactive =>
    (FnResult.FN_OK, {st with engine_state := EngineState.Stopped})
  | EngineState.Daemon =>
    (FnResult.FN_OK, {st with engine_state := EngineState.Stopped})
  | _ => (FnResult.FN_ERR_NOT_INITIALIZED, st)

/-- Concrete parsed command used in witnesses: the result of parsing
`"greet name=Jane -formal"`. -/
def sampleCmd : FnCommandData :=
  ⟨"greet", [⟨"name", "Jane"⟩], [⟨"formal", true⟩]⟩

/-- Concrete handler used in witnesses: always succeeds. -/
def okHandler : FnCommandHandler := fun _ _ => FnResult.FN_OK

/-- Concrete handler used in witnesses: always reports NotImplemented,
distinguishable from `okHandler` by its result. -/
def niHandler : FnCommandHandler := fun _ _ => FnResult.FN_ERR_NOT_IMPLEMENTED

/-- Helper: a list's `any` over flag names agrees with existence of a
matching flag. -/
theorem any_flag_name_iff (fls : List FnFlag) (f : String) :
    (fls.any fun fl => fl.name == f) = true ↔ ∃ fl ∈ fls, fl.name = f := by
  simp [List.any_eq_true]

/-- Helper: a fresh name is found at the appended entry. -/
theorem lookupCommand_append (reg : List CommandEntry) (n : String)
    (e : CommandEntry) (h : lookupCommand reg n = none)
    (he : (e.name == n) = true) :
    lookupCommand (reg ++ [e]) n = some e := by
  unfold lookupCommand at h ⊢
  induction reg with
  | nil => simp [List.find?, he]
  | cons x xs ih =>
    rw [List.cons_append]
    cases hx : x.name == n with
    | true =>
      simp only [List.find?, hx] at h
      exact (Option.some_ne_none x h).elim
    | false =>
      simp only [List.find?, hx] at h ⊢
      exact ih h

/-- Helper: a whitespace-only character list tokenizes to no tokens. -/
theorem tokenizeAux_ws (cs : List Char) (h : ∀ c ∈ cs, c.isWhitespace) :
    tokenizeAux cs [] = [] := by
  induction cs with
  | nil => rfl
  | cons c rest ih =>
    have hc : c.isWhitespace = true := h c (by simp)
    simp [tokenizeAux, hc]
    exact ih fun x hx => h x (by simp [hx])

/-- Claim C8: the result-code set is the stable append-only ordinal
sequence OK, InvalidArgument, NotInitialized, AlreadyRegistered,
Internal, Unsupported, NotFound, NotAuthenticated, PermissionDenied,
NotImplemented: `FnResult` assigns these ten codes the consecutive
values 0 through 9 in that order, with `FN_OK = 0` the only success
value. -/
theorem C8_result_codes :
    fnResultOrder.map FnResult.code = List.range 10 ∧
    (∀ r : FnResult, r ∈ fnResultOrder) ∧
    (∀ r : FnResult, r.code = 0 ↔ r = FnResult.FN_OK) := by
  refine ⟨by decide, by decide, by decide⟩

/-- Claim C2: parsing the input line `"greet name=Jane -formal"`
produces a parsed command with `main_command = "greet"`, exactly one
subcommand pair `("name", "Jane")` (split at the first `=`), and
exactly one flag `("formal", true)` with the leading `-` stripped from
the flag name. -/
theorem C2_parse_greet :
    parse "greet name=Jane -formal" =
      Except.ok ⟨"greet", [⟨"name", "Jane"⟩], [⟨"formal", true⟩]⟩ := by
  rfl

/-- Claim C10: `fn_destroy` called with a NULL handle is safe: it
performs no operation on the handle table, for every call site. -/
theorem C10_destroy_null (w : ApiWorld) : fn_destroy w none = w := rfl

/-- Claim C9: when `fn_set_execution_mode` selects daemon mode with a
channel name that is unspecified (NULL) or empty, the recorded IPC
channel name is the default `"fshell_ctrl"`; otherwise the given name
is recorded. -/
theorem C9_daemon_pipe_default (st : ShellInstance) (s : String)
    (hidle : st.engine_state = EngineState.Idle) :
    (fn_set_execution_mode st FnExecutionMode.FN_MODE_DAEMON none).2.pipe_name
      = "fshell_ctrl" ∧
    (fn_set_execution_mode st FnExecutionMode.FN_MODE_DAEMON
      (some "")).2.pipe_name = "fshell_ctrl" ∧
    (s ≠ "" →
      (fn_set_execution_mode st FnExecutionMode.FN_MODE_DAEMON
        (some s)).2.pipe_name = s) ∧
    (fn_set_execution_mode st FnExecutionMode.FN_MODE_DAEMON none).1
      = FnResult.FN_OK := by
  refine ⟨?_, ?_, ?_, ?_⟩
  · simp [fn_set_execution_mode, hidle, defaultPipeName]
  · simp [fn_set_execution_mode, hidle, defaultPipeName]
  · intro hs
    simp [fn_set_execution_mode, hidle, defaultPipeName, hs]
  · simp [fn_set_execution_mode, hidle, defaultPipeName]

/-- Witness for C9 at a concrete fresh instance and channel name. -/
theorem C9_daemon_pipe_default_witness :
    (fn_set_execution_mode (fn_create "App") FnExecutionMode.FN_MODE_DAEMON
      none).2.pipe_name = "fshell_ctrl" ∧
    (fn_set_execution_mode (fn_create "App") FnExecutionMode.FN_MODE_DAEMON
      (some "myapp_ctrl")).2.pipe_name = "myapp_ctrl" :=
  ⟨(C9_daemon_pipe_default (fn_create "App") "myapp_ctrl" rfl).1,
   (C9_daemon_pipe_default (fn_create "App") "myapp_ctrl" rfl).2.2.1
     (by decide)⟩

/-- Claim C5: `fn_get_param` is total over all inputs: a NULL command
view, a NULL key, or a key with no matching subcommand pair yields no
value (`none`, never a crash), and a value is returned only for a key
present among the view's subcommand pairs. -/
theorem C5_get_param_total (cmd : Option FnCommandData) (key : Option String) :
    fn_get_param none key = none ∧
    fn_get_param cmd none = none ∧
    (∀ c k, cmd = some c → key = some k →
      (∀ p ∈ c.subcommands, p.key ≠ k) → fn_get_param cmd key = none) ∧
    (∀ v, fn_get_param cmd key = some v →
      ∃ c k p, cmd = some c ∧ key = some k ∧ p ∈ c.subcommands ∧
        p.key = k ∧ p.value = v) := by
  refine ⟨rfl, by cases cmd <;> rfl, ?_, ?_⟩
  · rintro c k rfl rfl hmiss
    have hfind : c.subcommands.find? (fun p => p.key == k) = none := by
      rw [List.find?_eq_none]
      intro p hp
      simpa using hmiss p hp
    simp [fn_get_param, hfind]
  · intro v hv
    match cmd, key with
    | none, _ => exact absurd hv (by simp [fn_get_param])
    | some c, none => exact absurd hv (by simp [fn_get_param])
    | some c, some k =>
      simp only [fn_get_param, Option.map_eq_some'] at hv
      obtain ⟨p, hfind, hval⟩ := hv
      exact ⟨c, k, p, rfl, rfl, List.mem_of_find?_eq_some hfind,
        by simpa using List.find?_some hfind, hval⟩

/-- Witness for C5 at the sample command: hit, missing key, NULL view
and NULL key. -/
theorem C5_get_param_total_witness :
    fn_get_param none (some "name") = none ∧
    fn_get_param (some sampleCmd) none = none ∧
    fn_get_param (some sampleCmd) (some "missing") = none ∧
    ∃ c k p, (some sampleCmd : Option FnCommandData) = some c ∧
      (some "name" : Option String) = some k ∧ p ∈ c.subcommands ∧
      p.key = k ∧ p.value = "Jane" := by
  refine ⟨(C5_get_param_total (some sampleCmd) (some "name")).1,
    (C5_get_param_total (some sampleCmd) (some "name")).2.1, ?_, ?_⟩
  · exact (C5_get_param_total (some sampleCmd) (some "missing")).2.2.1
      sampleCmd "missing" rfl rfl (by decide)
  · exact (C5_get_param_total (some sampleCmd) (some "name")).2.2.2
      "Jane" rfl

/-- Claim C6: `fn_has_flag` returns 0 whenever the command view is
NULL, the flag name is NULL, or the named flag is absent from the
view's flag array, and returns 1 exactly when the flag is present. -/
theorem C6_has_flag_total (cmd : Option FnCommandData) (flag : Option String) :
    fn_has_flag none flag = 0 ∧
    fn_has_flag cmd none = 0 ∧
    (∀ c f, cmd = some c → flag = some f →
      ((fn_has_flag cmd flag = 1 ↔ ∃ fl ∈ c.flags, fl.name = f) ∧
       (fn_has_flag cmd flag = 0 ↔ ¬∃ fl ∈ c.flags, fl.name = f))) := by
  refine ⟨rfl, by cases cmd <;> rfl, ?_⟩
  rintro c f rfl rfl
  have hiff := any_flag_name_iff c.flags f
  show ((if c.flags.any fun fl => fl.name == f then 1 else 0) = 1 ↔ _) ∧
    ((if c.flags.any fun fl => fl.name == f then 1 else 0) = 0 ↔ _)
  by_cases h : (c.flags.any fun fl => fl.name == f) = true
  · rw [if_pos h]
    exact ⟨iff_of_true rfl (hiff.mp h),
      iff_of_false (by decide) (not_not_intro (hiff.mp h))⟩
  · rw [if_neg h]
    exact ⟨iff_of_false (by decide) (fun hp => h (hiff.mpr hp)),
      iff_of_true rfl (fun hp => h (hiff.mpr hp))⟩

/-- Witness for C6 at the sample command: present flag, absent flag,
NULL view. -/
theorem C6_has_flag_total_witness :
    fn_has_flag (some sampleCmd) (some "formal") = 1 ∧
    fn_has_flag (some sampleCmd) (some "verbose") = 0 ∧
    fn_has_flag none (some "formal") = 0 := by
  refine ⟨?_, ?_, (C6_has_flag_total none (some "formal")).1⟩
  · exact ((C6_has_flag_total (some sampleCmd) (some "formal")).2.2
      sampleCmd "formal" rfl rfl).1.mpr (by decide)
  · exact ((C6_has_flag_total (some sampleCmd) (some "verbose")).2.2
      sampleCmd "verbose" rfl rfl).2.mpr (by decide)

/-- Claim C4: for every input line that is empty or consists only of
whitespace, `parse` returns a parse error, and the dispatch path
through `fn_cmd_execute` dispatches nothing: no command lookup or
handler invocation occurs. -/
theorem C4_blank_line_no_dispatch (line : String)
    (h : ∀ c ∈ line.toList, c.isWhitespace) :
    parse line = Except.error FnResult.FN_ERR_INVALID_ARGUMENT ∧
    ∀ st, fn_cmd_execute st (some line) =
      (FnResult.FN_ERR_INVALID_ARGUMENT, none) := by
  have hp : parse line = Except.error FnResult.FN_ERR_INVALID_ARGUMENT := by
    unfold parse tokenize
    rw [tokenizeAux_ws line.toList h]
  exact ⟨hp, fun st => by simp [fn_cmd_execute, dispatchLine, hp]⟩

/-- Witness for C4 on the empty line and a whitespace-only line. -/
theorem C4_blank_line_no_dispatch_witness :
    parse "" = Except.error FnResult.FN_ERR_INVALID_ARGUMENT ∧
    fn_cmd_execute (fn_create "App") (some "  ") =
      (FnResult.FN_ERR_INVALID_ARGUMENT, none) :=
  ⟨(C4_blank_line_no_dispatch "" (by decide)).1,
   (C4_blank_line_no_dispatch "  " (by decide)).2 (fn_create "App")⟩

/-- Claim C1: for every valid command name, calling `fn_cmd_register`
twice with that name on the same instance returns `FN_OK` the first
time and `FN_ERR_ALREADY_REGISTERED` the second time, the registry is
not mutated by the failed second call, and the handler installed by
the first call remains the one invoked when the command is
dispatched. -/
theorem C1_register_twice (st : ShellInstance) (n : String)
    (h1 h2 : FnCommandHandler) (u1 u2 : Nat) (t1 t2 : String)
    (hn : n ≠ "") (hfresh : lookupCommand st.registry n = none) :
    (fn_cmd_register st (some n) (some h1) u1 t1).1 = FnResult.FN_OK ∧
    (fn_cmd_register (fn_cmd_register st (some n) (some h1) u1 t1).2
      (some n) (some h2) u2 t2).1 = FnResult.FN_ERR_ALREADY_REGISTERED ∧
    (fn_cmd_register (fn_cmd_register st (some n) (some h1) u1 t1).2
      (some n) (some h2) u2 t2).2 =
      (fn_cmd_register st (some n) (some h1) u1 t1).2 ∧
    ∀ line c, parse line = Except.ok c → c.main_command = n →
      fn_cmd_execute (fn_cmd_register
        (fn_cmd_register st (some n) (some h1) u1 t1).2
        (some n) (some h2) u2 t2).2 (some line) =
        (h1 c u1, some ⟨n, h1, u1, t1⟩) := by
  have h1eq : fn_cmd_register st (some n) (some h1) u1 t1 =
      (FnResult.FN_OK,
       {st with registry := st.registry ++ [⟨n, h1, u1, t1⟩]}) := by
    simp [fn_cmd_register, hn, hfresh]
  have hlook : lookupCommand (st.registry ++ [⟨n, h1, u1, t1⟩]) n =
      some ⟨n, h1, u1, t1⟩ :=
    lookupCommand_append st.registry n _ hfresh (by simp)
  have h2eq : fn_cmd_register
      {st with registry := st.registry ++ [⟨n, h1, u1, t1⟩]}
      (some n) (some h2) u2 t2 =
      (FnResult.FN_ERR_ALREADY_REGISTERED,
       {st with registry := st.registry ++ [⟨n, h1, u1, t1⟩]}) := by
    simp [fn_cmd_register, hn, hlook]
  refine ⟨by rw [h1eq], by rw [h1eq, h2eq], by rw [h1eq, h2eq], ?_⟩
  intro line c hparse hmain
  rw [h1eq, h2eq]
  simp [fn_cmd_execute, dispatchLine, hparse, hmain, hlook, invokeEntry]

/-- Witness for C1: two registrations of `"greet"` on a fresh instance
followed by dispatching `"greet name=Jane -formal"`. -/
theorem C1_register_twice_witness :
    (fn_cmd_register (fn_create "App") (some "greet") (some okHandler)
      7 "help").1 = FnResult.FN_OK ∧
    (fn_cmd_register (fn_cmd_register (fn_create "App") (some "greet")
      (some okHandler) 7 "help").2 (some "greet") (some niHandler)
      9 "other").1 = FnResult.FN_ERR_ALREADY_REGISTERED ∧
    fn_cmd_execute (fn_cmd_register (fn_cmd_register (fn_create "App")
      (some "greet") (some okHandler) 7 "help").2 (some "greet")
      (some niHandler) 9 "other").2 (some "greet name=Jane -formal") =
      (okHandler sampleCmd 7, some ⟨"greet", okHandler, 7, "help"⟩) := by
  have h := C1_register_twice (fn_create "App") "greet" okHandler niHandler
    7 9 "help" "other" (by decide) rfl
  exact ⟨h.1, h.2.1, h.2.2.2 "greet name=Jane -formal" sampleCmd rfl rfl⟩

/-- Helper: the run loop dispatches exactly the lines before the first
stop signal, returns as soon as it observes the stop signal, and ends
in state `Stopped`. -/
theorem runLoop_stop (st : ShellInstance) (pre : List String)
    (post : List RunEvent) :
    runLoop st (pre.map RunEvent.input ++ RunEvent.stopSignal :: post) =
      ({st with engine_state := EngineState.Stopped}, pre) := by
  induction pre with
  | nil => rfl
  | cons l rest ih => simp [runLoop, ih]

/-- Claim C3: the execution engine is a state machine
`Idle -> {Interactive, Daemon} -> Stopped` in which `fn_run` called in
any state other than `Idle` fails with `FN_ERR_NOT_INITIALIZED`, and
`fn_stop` invoked while `fn_run` is blocked (a stop signal observed by
the loop) makes `fn_run` return without dispatching the remaining
input, transitions the instance to `Stopped`, and makes every
subsequent `fn_run` call on that instance fail with a lifecycle
error. -/
theorem C3_run_lifecycle (st : ShellInstance) (evs evs2 post : List RunEvent)
    (pre : List String) :
    (st.engine_state ≠ EngineState.Idle →
      fn_run st evs = (FnResult.FN_ERR_NOT_INITIALIZED, st, [])) ∧
    (st.engine_state = EngineState.Idle →
      fn_run st (pre.map RunEvent.input ++ RunEvent.stopSignal :: post) =
        (FnResult.FN_OK, {st with engine_state := EngineState.Stopped},
         pre) ∧
      (fn_run {st with engine_state := EngineState.Stopped} evs2).1 =
        FnResult.FN_ERR_NOT_INITIALIZED) ∧
    (∀ st3 : ShellInstance,
      st3.engine_state = EngineState.Interactive ∨
        st3.engine_state = EngineState.Daemon →
      fn_stop st3 =
        (FnResult.FN_OK, {st3 with engine_state := EngineState.Stopped})) := by
  refine ⟨?_, ?_, ?_⟩
  · intro hne
    simp [fn_run, hne]
  · intro hidle
    constructor
    · simp [fn_run, hidle, runLoop_stop]
    · simp [fn_run]
  · rintro st3 (h3 | h3) <;> simp [fn_stop, h3]

/-- Witness for C3: a stopped instance rejects `fn_run`; a fresh
instance runs, dispatches one line, returns on the stop signal in
state `Stopped`; `fn_stop` stops an interactive instance. -/
theorem C3_run_lifecycle_witness :
    fn_run {fn_create "App" with engine_state := EngineState.Stopped} [] =
      (FnResult.FN_ERR_NOT_INITIALIZED,
       {fn_create "App" with engine_state := EngineState.Stopped}, []) ∧
    fn_run (fn_create "App")
      (["stats"].map RunEvent.input ++ RunEvent.stopSignal :: []) =
      (FnResult.FN_OK,
       {fn_create "App" with engine_state := EngineState.Stopped},
       ["stats"]) ∧
    fn_stop {fn_create "App" with engine_state := EngineState.Interactive} =
      (FnResult.FN_OK,
       {{fn_create "App" with engine_state := EngineState.Interactive} with
         engine_state := EngineState.Stopped}) := by
  have h := C3_run_lifecycle
    {fn_create "App" with engine_state := EngineState.Stopped} [] [] [] []
  have h2 := C3_run_lifecycle (fn_create "App") [] [] [] ["stats"]
  exact ⟨h.1 (by decide), (h2.2.1 rfl).1,
    h2.2.2 {fn_create "App" with engine_state := EngineState.Interactive}
      (Or.inl rfl)⟩

/-- Helper: contents of a sink at the head or in the tail of the sink
table. -/
theorem sinkOf_cons (p : Int × List String) (rest : List (Int × List String))
    (sid : Int) :
    sinkOf (p :: rest) sid = if p.1 == sid then p.2 else sinkOf rest sid := by
  by_cases hp : (p.1 == sid) = true <;> simp [sinkOf, List.find?, hp]

/-- Helper: appending to a session's own sink appends at the end of
its contents. -/
theorem sinkOf_appendSink_same (sinks : List (Int × List String))
    (sid : Int) (t : String) :
    sinkOf (appendSink sinks sid t) sid = sinkOf sinks sid ++ [t] := by
  induction sinks with
  | nil => simp [appendSink, sinkOf_cons, sinkOf, List.find?]
  | cons p rest ih =>
    by_cases hp : (p.1 == sid) = true
    · simp [appendSink, hp, sinkOf_cons]
    · simp [appendSink, hp, sinkOf_cons, ih]

/-- Helper: appending to some other session's sink leaves a session's
contents unchanged. -/
theorem sinkOf_appendSink_ne (sinks : List (Int × List String))
    (sid A : Int) (t : String) (h : sid ≠ A) :
    sinkOf (appendSink sinks sid t) A = sinkOf sinks A := by
  have hsA : (sid == A) = false := by simpa using h
  induction sinks with
  | nil => simp [appendSink, sinkOf_cons, hsA, sinkOf, List.find?]
  | cons p rest ih =>
    by_cases hp : (p.1 == sid) = true
    · have hp1 : p.1 = sid := by simpa using hp
      have hpA : (p.1 == A) = false := by simp [hp1, h]
      simp [appendSink, hp, sinkOf_cons, hpA]
    · simp [appendSink, hp, sinkOf_cons, ih]

/-- Claim C7: for every pair of sessions bound to different calling
contexts, session A's output sink contains only the text emitted by
`fn_print` calls made while A was bound on its own context: over any
interleaved trace of session-manager calls, A's sink grows by exactly
the `printsFor` texts (those printed from a context bound to A at the
moment of the call), so no `fn_print` made under a different context's
binding ever appears in A's sink. -/
theorem C7_session_isolation (st : SessionState) (A : Int)
    (evs : List SessEvent) :
    sinkOf (sessRun st evs).sinks A =
      sinkOf st.sinks A ++ printsFor st.binding A evs := by
  induction evs generalizing st with
  | nil => simp [sessRun, printsFor]
  | cons e rest ih =>
    cases e with
    | setSession ctx sid =>
      simpa [sessRun, sessStep, fn_set_thread_session_id, printsFor]
        using ih {st with binding := setBinding st.binding ctx sid}
    | clearSession ctx =>
      simpa [sessRun, sessStep, fn_clear_thread_session_id, printsFor]
        using ih {st with binding := removeBinding st.binding ctx}
    | printText ctx t =>
      show sinkOf (sessRun (fn_print st ctx t) rest).sinks A = _
      cases hb : bindingOf st.binding ctx with
      | none =>
        rw [ih]
        simp [fn_print, hb, printsFor]
      | some sid =>
        rw [ih]
        by_cases hA : sid = A
        · subst hA
          simp [fn_print, hb, printsFor, sinkOf_appendSink_same]
        · simp [fn_print, hb, printsFor, sinkOf_appendSink_ne _ _ _ _ hA, hA]

end FShell
